import Mathlib

/-
  Verification development for the nfldb database layer (nfldb/db.py).

  The file embeds, as executable Lean definitions, the transaction-scope
  class Tx (db.py lines 172-217), the schema-version reader schema_version
  (lines 94-107), the migration runner _migrate together with the registered
  migration functions _migrate_1 and _migrate_2 (lines 312-592), the
  version-precondition checks of connect (lines 73-79), the upsert builder
  _upsert (lines 252-296) and the bulk-insert builder _big_insert
  (lines 220-249).  Theorems about these definitions settle the frozen
  specification claims.
-/

set_option maxHeartbeats 1000000

namespace Nfldb

/-! ## Part 1: the Tx scope (db.py lines 172-217)

    A Tx object records, at construction time, whether the connection's
    transaction status is TRANSACTION_STATUS_INTRANS (line 198-199).  Its
    exit handler (lines 207-217) first closes the cursor, then, only for a
    non-nested scope, rolls the connection back on an error exit or commits
    it on a normal exit; an error is never swallowed (exit returns False on
    the error path, so the exception propagates unchanged).

    We model client code running against one connection as a small program
    type and give it a semantics that threads the connection's
    in-transaction status and records the connection/cursor actions
    performed, exactly following Tx.__init__/__enter__/__exit__.  In
    psycopg2, opening a cursor does not change the transaction status;
    executing a statement puts the connection in transaction; commit and
    rollback end the transaction. -/

/-- Observable actions on the psycopg2 connection and its cursors:
a statement execution attempt, a cursor close, a transaction commit and a
transaction rollback. -/
inductive Act where
  | stmt
  | close
  | commit
  | rollback
deriving DecidableEq, Repr

/-- Client programs against one connection: a successful statement
execution, a body that raises a Python exception (identified by a numeric
code), sequential composition, and a `with Tx(conn)` block around a body. -/
inductive Prog where
  | exec
  | raiseE (e : Nat)
  | seq (p q : Prog)
  | tx (body : Prog)

/-- Result of running a program: the outcome (normal return, or the
propagated exception), the connection's final in-transaction status, and
the list of actions performed, in order. -/
structure RunRes where
  result : Except Nat Unit
  intrans : Bool
  acts : List Act
deriving Repr

/-- Semantics of programs over a connection whose in-transaction status is
the boolean argument.  The `tx` case is the embedding of Tx: `__init__`
reads the transaction status into the nested flag (db.py lines 198-199),
`__enter__` opens a cursor (no status change, line 204), and `__exit__`
(lines 207-217) closes the cursor first, then for a non-nested scope rolls
back on error exit or commits on normal exit; a nested scope does neither,
and the error value propagates unchanged. -/
def runP : Prog → Bool → RunRes
  | .exec, _ => ⟨.ok (), true, [.stmt]⟩
  | .raiseE e, s => ⟨.error e, s, []⟩
  | .seq p q, s =>
    match runP p s with
    | ⟨.error e, s1, a1⟩ => ⟨.error e, s1, a1⟩
    | ⟨.ok _, s1, a1⟩ =>
      match runP q s1 with
      | ⟨r2, s2, a2⟩ => ⟨r2, s2, a1 ++ a2⟩
  | .tx body, s =>
    match runP body s with
    | ⟨.error e, s1, a1⟩ =>
      if s then ⟨.error e, s1, a1 ++ [.close]⟩
      else ⟨.error e, false, a1 ++ [.close, .rollback]⟩
    | ⟨.ok _, s1, a1⟩ =>
      if s then ⟨.ok (), s1, a1 ++ [.close]⟩
      else ⟨.ok (), false, a1 ++ [.close, .commit]⟩

/-- Number of commit-or-rollback decisions in a list of actions. -/
def countCR (l : List Act) : Nat :=
  l.countP (fun a => a == .commit || a == .rollback)

theorem countCR_append (l l' : List Act) :
    countCR (l ++ l') = countCR l + countCR l' :=
  List.countP_append _ _ _

/-- A program run while the connection is already in a transaction keeps the
connection in the transaction and performs no commit and no rollback: every
scope opened inside it sees INTRANS at construction and is therefore
nested. -/
theorem runP_intrans (p : Prog) :
    (runP p true).intrans = true ∧ countCR (runP p true).acts = 0 := by
  induction p with
  | exec => exact ⟨rfl, rfl⟩
  | raiseE e => exact ⟨rfl, rfl⟩
  | seq p q ihp ihq =>
    obtain ⟨hip, hcp⟩ := ihp
    cases hr : runP p true with
    | mk res s1 a1 =>
      rw [hr] at hip hcp
      cases res with
      | error e =>
        simp only [runP, hr]
        exact ⟨hip, hcp⟩
      | ok u =>
        obtain ⟨hiq, hcq⟩ := ihq
        cases hr2 : runP q true with
        | mk res2 s2 a2 =>
          rw [hr2] at hiq hcq
          simp only at hip
          subst hip
          simp only [runP, hr, hr2]
          refine ⟨hiq, ?_⟩
          simp only at hcp hcq
          simp [countCR_append, hcp, hcq]
  | tx body ih =>
    obtain ⟨hib, hcb⟩ := ih
    cases hr : runP body true with
    | mk res s1 a1 =>
      rw [hr] at hib hcb
      cases res with
      | error e =>
        simp only [runP, hr, if_true]
        refine ⟨hib, ?_⟩
        simp only at hcb
        rw [countCR_append, hcb]
        decide
      | ok u =>
        simp only [runP, hr, if_true]
        refine ⟨hib, ?_⟩
        simp only at hcb
        rw [countCR_append, hcb]
        decide

/-- Claim C1.  A Tx scope constructed while the connection is already in a
transaction is marked nested and on exit neither commits nor rolls back,
propagating any error to the caller unchanged (first conjunct; by the
nesting invariant its whole trace contains no commit and no rollback).  A
non-nested scope commits the connection's transaction on normal exit and
rolls it back on error exit, propagating the error unchanged (second
conjunct).  Consequently a top-level scope that begins its transaction with
a statement makes exactly one commit-or-rollback decision for the whole
unit of work, and the decision is rollback exactly when some part of the
nested body failed (third conjunct). -/
theorem claim_C1_tx_scope :
    (∀ body, (runP (.tx body) true).result = (runP body true).result ∧
      countCR (runP (.tx body) true).acts = 0) ∧
    (∀ body,
      ((runP body false).result = .ok () →
        (runP (.tx body) false).result = .ok () ∧
        (runP (.tx body) false).acts =
          (runP body false).acts ++ [Act.close, Act.commit]) ∧
      (∀ e, (runP body false).result = .error e →
        (runP (.tx body) false).result = .error e ∧
        (runP (.tx body) false).acts =
          (runP body false).acts ++ [Act.close, Act.rollback])) ∧
    (∀ body,
      countCR (runP (.tx (.seq .exec body)) false).acts = 1 ∧
      ((runP body true).result = .ok () →
        (runP (.tx (.seq .exec body)) false).acts =
          Act.stmt :: (runP body true).acts ++ [Act.close, Act.commit]) ∧
      (∀ e, (runP body true).result = .error e →
        (runP (.tx (.seq .exec body)) false).result = .error e ∧
        (runP (.tx (.seq .exec body)) false).acts =
          Act.stmt :: (runP body true).acts ++ [Act.close, Act.rollback])) := by
  refine ⟨?_, ?_, ?_⟩
  · intro body
    obtain ⟨hib, hcb⟩ := runP_intrans body
    cases hr : runP body true with
    | mk res s1 a1 =>
      rw [hr] at hib hcb
      simp only at hib hcb
      cases res with
      | error e =>
        simp only [runP, hr, if_true]
        refine ⟨trivial, ?_⟩
        rw [countCR_append, hcb]
        decide
      | ok u =>
        simp only [runP, hr, if_true]
        refine ⟨trivial, ?_⟩
        rw [countCR_append, hcb]
        decide
  · intro body
    constructor
    · intro hok
      cases hr : runP body false with
      | mk res s1 a1 =>
        rw [hr] at hok
        simp only at hok
        subst hok
        simp [runP, hr]
    · intro e herr
      cases hr : runP body false with
      | mk res s1 a1 =>
        rw [hr] at herr
        simp only at herr
        subst herr
        simp [runP, hr]
  · intro body
    obtain ⟨hib, hcb⟩ := runP_intrans body
    cases hr : runP body true with
    | mk res s1 a1 =>
      rw [hr] at hib hcb
      simp only at hib hcb
      subst hib
      cases res with
      | error e =>
        have hacts : (runP (.tx (.seq .exec body)) false).acts =
            [Act.stmt] ++ a1 ++ [Act.close, Act.rollback] := by
          simp [runP, hr]
        refine ⟨?_, ?_, ?_⟩
        · rw [hacts, countCR_append, countCR_append, hcb]; decide
        · intro hok; exact Except.noConfusion hok
        · intro e' he'
          simp only [Except.error.injEq] at he'
          subst he'
          simp [runP, hr]
      | ok u =>
        have hacts : (runP (.tx (.seq .exec body)) false).acts =
            [Act.stmt] ++ a1 ++ [Act.close, Act.commit] := by
          simp [runP, hr]
        refine ⟨?_, ?_, ?_⟩
        · rw [hacts, countCR_append, countCR_append, hcb]; decide
        · intro _; simp [runP, hr]
        · intro e' he'; exact Except.noConfusion he'

/-- Witness for claim C1: the implications of the claim discharged at
concrete programs.  A top-level scope whose body executes one statement
commits exactly once; a top-level scope whose body executes one statement
and then raises exception 7 propagates error 7 and rolls back. -/
theorem claim_C1_tx_scope_witness :
    (runP (.tx .exec) false).acts = (runP .exec false).acts ++ [Act.close, Act.commit] ∧
    (runP (.tx (.seq .exec (.raiseE 7))) false).result = .error 7 :=
  ⟨((claim_C1_tx_scope.2.1 .exec).1 rfl).2,
   ((claim_C1_tx_scope.2.2 (.raiseE 7)).2.2 7 rfl).1⟩

/-- Claim C9.  On every exit path of a Tx scope — normal or error, nested
or not — the cursor is closed first, before any commit-or-rollback
decision of the scope: the scope's trace is the body's trace, then the
cursor close, then (only for a non-nested scope) the single commit or
rollback.  No scope leaves its statement handle open. -/
theorem claim_C9_close_first (body : Prog) (s : Bool) :
    ∃ d, (runP (.tx body) s).acts = (runP body s).acts ++ [Act.close] ++ d ∧
      (d = [] ∨ d = [Act.commit] ∨ d = [Act.rollback]) := by
  cases hr : runP body s with
  | mk res s1 a1 =>
    cases res with
    | error e =>
      cases s with
      | false => exact ⟨[Act.rollback], by simp [runP, hr], Or.inr (Or.inr rfl)⟩
      | true => exact ⟨[], by simp [runP, hr], Or.inl rfl⟩
    | ok u =>
      cases s with
      | false => exact ⟨[Act.commit], by simp [runP, hr], Or.inr (Or.inl rfl)⟩
      | true => exact ⟨[], by simp [runP, hr], Or.inl rfl⟩

/-! ## Part 2: schema versioning and the migration runner
    (db.py lines 94-107, 312-322, 325-592, and the version checks of
    connect, lines 73-79)

    The database state visible to this layer is the meta key/value store
    (`none` while the meta table has not been created), the set of created
    tables and the set of other created schema objects (domains, types).
    Backend errors are modelled by the psycopg2 error classes that the
    code distinguishes. -/

/-- Backend (psycopg2) error classes distinguished by the code: the
undefined-object flavour of ProgrammingError raised when a referenced
table does not exist, the duplicate-object error raised by CREATE for an
existing object, and the ValueError raised by int() on a non-numeric
string. -/
inductive Pg where
  | undefinedObject
  | duplicateObject
  | valueError
deriving DecidableEq, Repr

/-- Database state: the meta store (name/value rows; `none` when the meta
table itself does not exist), the created tables and the other created
schema objects (domains, types). -/
structure DB where
  meta : Option (List (String × String))
  tables : List String
  others : List String
deriving DecidableEq, Repr

/-- Value of a base-10 digit character. -/
def decDigit (c : Char) : Option Nat :=
  if '0' <= c && c <= '9' then some (c.toNat - '0'.toNat) else none

/-- Accumulating base-10 parse of a character list; fails on any
non-digit character. -/
def decParse : List Char -> Nat -> Option Nat
  | [], acc => some acc
  | c :: rest, acc =>
    match decDigit c with
    | none => none
    | some d => decParse rest (acc * 10 + d)

/-- The int() parse applied to the stored version values: a non-empty
string of base-10 digits denotes the corresponding number, anything else
raises (int() also accepts signs and surrounding whitespace, which never
occur in stored version values). -/
def int_parse (s : String) : Option Nat :=
  match s.data with
  | [] => none
  | l => decParse l 0

/-- First row of the meta store with the given name, as selected by
SELECT value FROM meta WHERE name = %s (db.py line 101); the meta table
has name as primary key, so at most one row matches. -/
def lookupMeta (key : String) : List (String × String) → Option String
  | [] => none
  | (n, v) :: rest => if n = key then some v else lookupMeta key rest

/-- Embedding of schema_version (db.py lines 94-107) together with the
trace of connection actions it performs.  Inside its own Tx scope it
executes the SELECT; if the meta table does not exist the resulting
ProgrammingError is caught, the connection is rolled back and 0 is
returned (the with-block then exits normally: cursor close and commit);
if no version row exists, 0 is returned; otherwise the stored value is
parsed by int(), modelled by the base-10 parser int_parse below (a
non-numeric value raises, and the scope exits on the error path). -/
def schema_version_acts (db : DB) : Except Pg Nat × List Act :=
  match db.meta with
  | none => (.ok 0, [.stmt, .rollback, .close, .commit])
  | some rows =>
    match lookupMeta "version" rows with
    | none => (.ok 0, [.stmt, .close, .commit])
    | some s =>
      match int_parse s with
      | none => (.error .valueError, [.stmt, .close, .rollback])
      | some n => (.ok n, [.stmt, .close, .commit])

/-- The value schema_version returns (or the error it raises). -/
def schema_version (db : DB) : Except Pg Nat :=
  (schema_version_acts db).1

/-- Embedding of the statement UPDATE meta SET value = %s WHERE
name = 'version' (db.py line 322): it raises if the meta table does not
exist and otherwise rewrites the value of every row named version (there
is at most one); an UPDATE matching no row succeeds and changes
nothing. -/
def set_version (db : DB) (v : Nat) : Except Pg DB :=
  match db.meta with
  | none => .error .undefinedObject
  | some rows =>
    .ok { db with
          meta := some (rows.map fun nv =>
            if nv.1 = "version" then (nv.1, toString v) else nv) }

/-- A migration step takes the database state to a new state or raises a
backend error (the cursor argument of the Python functions is the handle
through which these effects happen). -/
abbrev Step : Type := DB → Except Pg DB

/-- Embedding of _migrate_1 (db.py lines 325-332): CREATE TABLE meta
(raises duplicate-object if it already exists) and seed the row
(version, 1). -/
def migrate_1 (db : DB) : Except Pg DB :=
  match db.meta with
  | some _ => .error .duplicateObject
  | none => .ok { db with meta := some [("version", "1")] }

/-- Tables created by _migrate_2 (db.py lines 335-592). -/
def migrate2_tables : List String :=
  ["team", "player", "game", "drive", "play", "play_player"]

/-- Domains and types created by _migrate_2 (db.py lines 339-387). -/
def migrate2_types : List String :=
  ["gameid", "usmallint", "game_clock", "field_offset", "utctime",
   "game_phase", "season_phase", "game_day", "playerpos",
   "game_time", "pos_period", "field_pos"]

/-- Embedding of _migrate_2 (db.py lines 335-592): creates the domains,
types, tables and indexes of schema version 2.  CREATE without IF NOT
EXISTS raises a duplicate-object error when any of these objects already
exists (the scope's transaction then rolls the partial work back, so the
step is atomic); otherwise all objects are created.  The meta store is
not touched. -/
def migrate_2 (db : DB) : Except Pg DB :=
  if migrate2_types.any (fun t => db.others.contains t) ||
      migrate2_tables.any (fun t => db.tables.contains t) then
    .error .duplicateObject
  else
    .ok { db with
          tables := db.tables ++ migrate2_tables,
          others := db.others ++ migrate2_types }

/-- The migration registry of the module: the functions named
_migrate_{VERSION} found in globals() (db.py lines 317-320, 325, 335);
only versions 1 and 2 are defined. -/
def nfldbSteps : Nat → Option Step
  | 1 => some migrate_1
  | 2 => some migrate_2
  | _ => none

/-- Errors that stop the migration machinery: a propagated
schema_version error, the two assertion failures of connect (lines
74-78), the two failure modes inside _migrate (bare assert on line 314,
missing-step assert on line 320), a failure of the version UPDATE, and a
migration step raising a backend error. -/
inductive MErr where
  | pgError (e : Pg)
  | libOlder (api sv : Nat)
  | notEmptyV0
  | assertBackward
  | stepMissing (v : Nat)
  | versionUpdateFailed (v : Nat) (e : Pg)
  | stepFailed (v : Nat) (e : Pg)
deriving DecidableEq, Repr

/-- The message attached to each fatal assertion, exactly as in the
source.  The assert on db.py line 314 (assert current <= to) carries no
message at all; the asserts of connect (lines 74-78) and the
missing-step assert (line 320) do. -/
def assertionMsg : MErr → Option String
  | .libOlder api sv =>
    some ("Library with version " ++ toString api ++
      " is older than the schema with version " ++ toString sv)
  | .notEmptyV0 => some "Schema has version 0 but is not empty."
  | .stepMissing v =>
    some ("Migration function " ++ toString v ++ " not defined.")
  | _ => none

/-- Outcome of a migration run: the error that stopped it (none on
success), the resulting committed database state, and the versions whose
step functions were invoked, in invocation order. -/
structure MResult where
  result : Option MErr
  db : DB
  invoked : List Nat
deriving DecidableEq, Repr

/-- The loop of _migrate (db.py lines 317-322) running n iterations
starting at version v: each iteration opens a fresh Tx scope, fails
fatally when no migration function is registered for v (the scope then
rolls back having changed nothing), otherwise invokes the step and runs
the version UPDATE inside the same scope; if either raises, the scope
rolls back to the state it was entered with and the error propagates,
aborting the run; on success the scope commits and the loop proceeds to
the next version. -/
def migrateLoop (steps : Nat → Option Step) : DB → Nat → Nat → MResult
  | db, _, 0 => ⟨none, db, []⟩
  | db, v, n + 1 =>
    match steps v with
    | none => ⟨some (.stepMissing v), db, []⟩
    | some f =>
      match f db with
      | .error e => ⟨some (.stepFailed v e), db, [v]⟩
      | .ok db1 =>
        match set_version db1 v with
        | .error e => ⟨some (.versionUpdateFailed v e), db, [v]⟩
        | .ok db2 =>
          let r := migrateLoop steps db2 (v + 1) n
          ⟨r.result, r.db, v :: r.invoked⟩

/-- Embedding of _migrate (db.py lines 312-322): read the current schema
version (a raised parse error propagates), assert current <= tgt with
no message (db.py line 314 spells it assert current <= to), then run the
loop for versions current+1 .. tgt. -/
def migrate (steps : Nat → Option Step) (db : DB) (tgt : Nat) : MResult :=
  match schema_version db with
  | .error e => ⟨some (.pgError e), db, []⟩
  | .ok current =>
    if current ≤ tgt then migrateLoop steps db (current + 1) (tgt - current)
    else ⟨some .assertBackward, db, []⟩

/-- The schema version this library corresponds to (db.py line 20). -/
def api_version : Nat := 2

/-- Embedding of _is_empty (db.py lines 152-164): the database has no
tables (the meta table counts). -/
def db_is_empty (db : DB) : Bool :=
  db.meta.isNone && db.tables.isEmpty

/-- The version checks and migration call of connect (db.py lines
73-79): read the schema version, assert it is not newer than the library
(with a message naming both versions), assert a version-0 database is
empty (with its own message), then migrate up to api_version. -/
def connect_check (db : DB) : MResult :=
  match schema_version db with
  | .error e => ⟨some (.pgError e), db, []⟩
  | .ok sv =>
    if api_version < sv then ⟨some (.libOlder api_version sv), db, []⟩
    else if sv == 0 && !(db_is_empty db) then ⟨some .notEmptyV0, db, []⟩
    else migrate nfldbSteps db api_version

/-! ### Lemmas about the migration loop -/

theorem range'_snoc (s n : Nat) :
    List.range' s (n + 1) = List.range' s n ++ [s + n] := by
  induction n generalizing s with
  | zero => simp
  | succ n ih =>
    rw [List.range'_succ, ih (s + 1), List.range'_succ]
    have : s + 1 + n = s + (n + 1) := by omega
    simp [this]

/-- A successful run of the loop invokes exactly the versions
v, v+1, ..., v+n-1, in ascending order. -/
theorem migrateLoop_ok_invoked (steps : Nat → Option Step) (db : DB) (v n : Nat)
    (h : (migrateLoop steps db v n).result = none) :
    (migrateLoop steps db v n).invoked = List.range' v n := by
  induction n generalizing db v with
  | zero => rfl
  | succ n ih =>
    cases hs : steps v with
    | none => simp [migrateLoop, hs] at h
    | some f =>
      cases hf : f db with
      | error e => simp [migrateLoop, hs, hf] at h
      | ok db1 =>
        cases hsv : set_version db1 v with
        | error e => simp [migrateLoop, hs, hf, hsv] at h
        | ok db2 =>
          have h2 : (migrateLoop steps db2 (v + 1) n).result = none := by
            simpa [migrateLoop, hs, hf, hsv] using h
          simp [migrateLoop, hs, hf, hsv, ih db2 (v + 1) h2, List.range'_succ]

/-- A successful run of the loop found a registered step for every
version in its range. -/
theorem migrateLoop_ok_steps (steps : Nat → Option Step) (db : DB) (v n : Nat)
    (h : (migrateLoop steps db v n).result = none) :
    ∀ w, v ≤ w → w < v + n → (steps w).isSome := by
  induction n generalizing db v with
  | zero => intro w h1 h2; omega
  | succ n ih =>
    intro w h1 h2
    cases hs : steps v with
    | none => simp [migrateLoop, hs] at h
    | some f =>
      cases hf : f db with
      | error e => simp [migrateLoop, hs, hf] at h
      | ok db1 =>
        cases hsv : set_version db1 v with
        | error e => simp [migrateLoop, hs, hf, hsv] at h
        | ok db2 =>
          have h2' : (migrateLoop steps db2 (v + 1) n).result = none := by
            simpa [migrateLoop, hs, hf, hsv] using h
          rcases Nat.eq_or_lt_of_le h1 with rfl | hlt
          · simp [hs]
          · exact ih db2 (v + 1) h2' w hlt (by omega)

/-- If the loop stops because the step for version w raised, then w lies
in the attempted range, the loop up to w-1 (that is, w - v iterations)
succeeds, the final state is exactly the state that shorter successful
run produces (the failing scope rolled back), and w is the last invoked
version. -/
theorem migrateLoop_stepFailed (steps : Nat → Option Step) (db : DB)
    (v n w : Nat) (e : Pg)
    (h : (migrateLoop steps db v n).result = some (.stepFailed w e)) :
    v ≤ w ∧ w < v + n ∧
    (migrateLoop steps db v (w - v)).result = none ∧
    (migrateLoop steps db v n).db = (migrateLoop steps db v (w - v)).db ∧
    (migrateLoop steps db v n).invoked =
      (migrateLoop steps db v (w - v)).invoked ++ [w] := by
  induction n generalizing db v with
  | zero => simp [migrateLoop] at h
  | succ n ih =>
    cases hs : steps v with
    | none => simp [migrateLoop, hs] at h
    | some f =>
      cases hf : f db with
      | error e' =>
        have hwe : v = w ∧ e' = e := by simpa [migrateLoop, hs, hf] using h
        obtain ⟨rfl, rfl⟩ := hwe
        have hz : v - v = 0 := by omega
        rw [hz]
        refine ⟨le_refl v, by omega, rfl, ?_, ?_⟩
        · simp [migrateLoop, hs, hf]
        · simp [migrateLoop, hs, hf]
      | ok db1 =>
        cases hsv : set_version db1 v with
        | error e' => simp [migrateLoop, hs, hf, hsv] at h
        | ok db2 =>
          have h2 : (migrateLoop steps db2 (v + 1) n).result =
              some (.stepFailed w e) := by
            simpa [migrateLoop, hs, hf, hsv] using h
          obtain ⟨h1, h2b, hpre, hdb, hinv⟩ := ih db2 (v + 1) h2
          have hwv : w - v = (w - (v + 1)) + 1 := by omega
          refine ⟨by omega, by omega, ?_, ?_, ?_⟩
          · rw [hwv]
            simpa [migrateLoop, hs, hf, hsv] using hpre
          · rw [hwv]
            simpa [migrateLoop, hs, hf, hsv] using hdb
          · rw [hwv]
            simp only [migrateLoop, hs, hf, hsv]
            simpa [migrateLoop, hs, hf, hsv] using hinv

theorem int_parse_one : int_parse (toString 1) = some 1 := by decide

theorem int_parse_two : int_parse (toString 2) = some 2 := by decide

/-- Updating the value of every row named key rewrites exactly the value
the lookup sees. -/
theorem lookupMeta_map_set (key val : String) (rows : List (String × String)) :
    lookupMeta key (rows.map fun nv => if nv.1 = key then (nv.1, val) else nv) =
      (lookupMeta key rows).map fun _ => val := by
  induction rows with
  | nil => rfl
  | cons nv rest ih =>
    simp only [List.map_cons]
    by_cases hk : nv.1 = key
    · rw [if_pos hk]
      simp [lookupMeta, hk]
    · rw [if_neg hk]
      simp [lookupMeta, hk, ih]

theorem nfldbSteps_big (w : Nat) : nfldbSteps (w + 3) = none := rfl

/-- Running the loop over the nfldb registry from version v with the
stored version reading v-1 leaves, on success, the stored version
reading v-1+n: each iteration persists its own version number inside its
scope. -/
theorem migrateLoop_nfldb_version (db : DB) (v n : Nat) (hv : 1 ≤ v)
    (hcur : schema_version db = .ok (v - 1))
    (h : (migrateLoop nfldbSteps db v n).result = none) :
    schema_version (migrateLoop nfldbSteps db v n).db = .ok (v - 1 + n) := by
  induction n generalizing db v with
  | zero => simpa [migrateLoop] using hcur
  | succ n ih =>
    match v, hv with
    | 1, _ =>
      cases hmeta : db.meta with
      | some rows => simp [migrateLoop, nfldbSteps, migrate_1, hmeta] at h
      | none =>
        have hstep : migrate_1 db =
            .ok { db with meta := some [("version", "1")] } := by
          simp [migrate_1, hmeta]
        have hupd : set_version { db with meta := some [("version", "1")] } 1 =
            .ok { db with meta := some [("version", toString 1)] } := by
          simp [set_version]
        have h2 : (migrateLoop nfldbSteps
            { db with meta := some [("version", toString 1)] } 2 n).result = none := by
          simpa [migrateLoop, nfldbSteps, hstep, hupd] using h
        have hcur2 : schema_version { db with meta := some [("version", toString 1)] } =
            .ok (2 - 1) := by
          simp [schema_version, schema_version_acts, lookupMeta, int_parse_one]
        have := ih { db with meta := some [("version", toString 1)] } 2
          (by omega) hcur2 h2
        have hgoal : (migrateLoop nfldbSteps db 1 (n + 1)).db =
            (migrateLoop nfldbSteps
              { db with meta := some [("version", toString 1)] } 2 n).db := by
          simp [migrateLoop, nfldbSteps, hstep, hupd]
        rw [hgoal, this]
        congr 1
        omega
    | 2, _ =>
      cases hmeta : db.meta with
      | none => simp [schema_version, schema_version_acts, hmeta] at hcur
      | some rows =>
        cases hlv : lookupMeta "version" rows with
        | none => simp [schema_version, schema_version_acts, hmeta, hlv] at hcur
        | some sv =>
          cases hp : int_parse sv with
          | none => simp [schema_version, schema_version_acts, hmeta, hlv, hp] at hcur
          | some k =>
            cases hguard : migrate_2 db with
            | error e => simp [migrateLoop, nfldbSteps, hguard] at h
            | ok db1 =>
              have hmeta1 : db1.meta = some rows := by
                unfold migrate_2 at hguard
                split at hguard
                · exact Except.noConfusion hguard
                · have hok := Except.ok.inj hguard
                  rw [← hok]
                  exact hmeta
              have hupd : set_version db1 2 =
                  .ok { db1 with meta := some (rows.map fun nv =>
                    if nv.1 = "version" then (nv.1, toString 2) else nv) } := by
                simp [set_version, hmeta1]
              have h2 : (migrateLoop nfldbSteps
                  { db1 with meta := some (rows.map fun nv =>
                    if nv.1 = "version" then (nv.1, toString 2) else nv) } 3 n).result =
                  none := by
                simpa [migrateLoop, nfldbSteps, hguard, hupd] using h
              have hcur2 : schema_version
                  { db1 with meta := some (rows.map fun nv =>
                    if nv.1 = "version" then (nv.1, toString 2) else nv) } =
                  .ok (3 - 1) := by
                simp [schema_version, schema_version_acts, lookupMeta_map_set, hlv,
                  int_parse_two]
              have := ih { db1 with meta := some (rows.map fun nv =>
                  if nv.1 = "version" then (nv.1, toString 2) else nv) } 3
                (by omega) hcur2 h2
              have hgoal : (migrateLoop nfldbSteps db 2 (n + 1)).db =
                  (migrateLoop nfldbSteps
                    { db1 with meta := some (rows.map fun nv =>
                      if nv.1 = "version" then (nv.1, toString 2) else nv) } 3 n).db := by
                simp [migrateLoop, nfldbSteps, hguard, hupd]
              rw [hgoal, this]
              congr 1
              omega
    | (w + 3), _ =>
      rw [show (migrateLoop nfldbSteps db (w + 3) (n + 1)).result =
        some (.stepMissing (w + 3)) from by simp [migrateLoop, nfldbSteps_big]] at h
      exact Option.noConfusion h

/-! ### Claims about the migration runner -/

/-- Claim C2.  For every database and target with a successful run of the
migration runner over the module registry: the run read some current
version sv with sv <= tgt, invoked exactly the steps sv+1 .. tgt once
each in ascending order, found a registered migration function for every
version in that range (a missing one is a fatal stop), and left the
stored schema version equal to tgt (each iteration wrote its version
number inside its own scope). -/
theorem claim_C2_migrate_success (db : DB) (tgt : Nat)
    (h : (migrate nfldbSteps db tgt).result = none) :
    ∃ sv, schema_version db = .ok sv ∧ sv ≤ tgt ∧
      (migrate nfldbSteps db tgt).invoked = List.range' (sv + 1) (tgt - sv) ∧
      (∀ w, sv + 1 ≤ w → w ≤ tgt → (nfldbSteps w).isSome) ∧
      schema_version (migrate nfldbSteps db tgt).db = .ok tgt := by
  cases hsv : schema_version db with
  | error e =>
    rw [show migrate nfldbSteps db tgt = ⟨some (.pgError e), db, []⟩ from by
      simp [migrate, hsv]] at h
    exact Option.noConfusion h
  | ok sv =>
    by_cases hle : sv ≤ tgt
    · have hm : migrate nfldbSteps db tgt =
          migrateLoop nfldbSteps db (sv + 1) (tgt - sv) := by
        simp [migrate, hsv, hle]
      rw [hm] at h
      rw [hm]
      refine ⟨sv, rfl, hle, migrateLoop_ok_invoked _ _ _ _ h, ?_, ?_⟩
      · intro w h1 h2
        exact migrateLoop_ok_steps _ _ _ _ h w h1 (by omega)
      · have hver := migrateLoop_nfldb_version db (sv + 1) (tgt - sv) (by omega)
          (by simpa using hsv) h
        rw [hver]
        congr 1
        omega
    · have hm : migrate nfldbSteps db tgt = ⟨some .assertBackward, db, []⟩ := by
        simp [migrate, hsv, hle]
      rw [hm] at h
      exact Option.noConfusion h

/-- Witness for claim C2: migrating the empty database to version 2
succeeds, invokes steps 1 and 2 in order, and leaves the stored version
at 2. -/
theorem claim_C2_migrate_success_witness :
    ∃ sv, schema_version ⟨none, [], []⟩ = .ok sv ∧ sv ≤ 2 ∧
      (migrate nfldbSteps ⟨none, [], []⟩ 2).invoked = List.range' (sv + 1) (2 - sv) ∧
      (∀ w, sv + 1 ≤ w → w ≤ 2 → (nfldbSteps w).isSome) ∧
      schema_version (migrate nfldbSteps ⟨none, [], []⟩ 2).db = .ok 2 :=
  claim_C2_migrate_success ⟨none, [], []⟩ 2 rfl

/-- Claim C3.  If the migration step for version w raises, the run
aborts with that error; the versions invoked are exactly sv+1 .. w (none
greater than w), the final state is exactly the state that a successful
run up to w-1 produces (the failing scope was rolled back, undoing only
version w including its version-number update), and the stored schema
version is w-1, the last successfully completed version. -/
theorem claim_C3_step_failure (db : DB) (tgt w : Nat) (e : Pg)
    (h : (migrate nfldbSteps db tgt).result = some (.stepFailed w e)) :
    ∃ sv, schema_version db = .ok sv ∧ sv < w ∧ w ≤ tgt ∧
      (migrate nfldbSteps db tgt).invoked = List.range' (sv + 1) (w - sv) ∧
      (migrate nfldbSteps db (w - 1)).result = none ∧
      (migrate nfldbSteps db tgt).db = (migrate nfldbSteps db (w - 1)).db ∧
      schema_version (migrate nfldbSteps db tgt).db = .ok (w - 1) := by
  cases hsv : schema_version db with
  | error e' =>
    rw [show migrate nfldbSteps db tgt = ⟨some (.pgError e'), db, []⟩ from by
      simp [migrate, hsv]] at h
    simp at h
  | ok sv =>
    by_cases hle : sv ≤ tgt
    · have hm : migrate nfldbSteps db tgt =
          migrateLoop nfldbSteps db (sv + 1) (tgt - sv) := by
        simp [migrate, hsv, hle]
      rw [hm] at h
      obtain ⟨h1, h2, hpre, hdb, hinv⟩ := migrateLoop_stepFailed _ _ _ _ _ _ h
      have hwt : w ≤ tgt := by omega
      have hwsm : w - (sv + 1) = w - 1 - sv := by omega
      have hm2 : migrate nfldbSteps db (w - 1) =
          migrateLoop nfldbSteps db (sv + 1) (w - 1 - sv) := by
        simp [migrate, hsv, show sv ≤ w - 1 from by omega]
      have hver := migrateLoop_nfldb_version db (sv + 1) (w - (sv + 1))
        (by omega) (by simpa using hsv) hpre
      refine ⟨sv, rfl, by omega, hwt, ?_, ?_, ?_, ?_⟩
      · rw [hm, hinv, migrateLoop_ok_invoked _ _ _ _ hpre]
        rw [show w - sv = (w - (sv + 1)) + 1 from by omega, range'_snoc,
          show sv + 1 + (w - (sv + 1)) = w from by omega]
      · rw [hm2, ← hwsm]
        exact hpre
      · rw [hm, hdb, hm2, ← hwsm]
      · rw [hm, hdb, hver]
        congr 1
        omega
    · have hm : migrate nfldbSteps db tgt = ⟨some .assertBackward, db, []⟩ := by
        simp [migrate, hsv, hle]
      rw [hm] at h
      simp at h

/-- Witness for claim C3: starting from a version-1 database that
already has a team table, step 2 raises a duplicate-object error; the
run aborts having invoked only step 2, the state is unchanged (equal to
a successful run to version 1, which does nothing), and the stored
version is still 1. -/
theorem claim_C3_step_failure_witness :
    ∃ sv, schema_version ⟨some [("version", "1")], ["team"], []⟩ = .ok sv ∧
      sv < 2 ∧ (2 : Nat) ≤ 2 ∧
      (migrate nfldbSteps ⟨some [("version", "1")], ["team"], []⟩ 2).invoked =
        List.range' (sv + 1) (2 - sv) ∧
      (migrate nfldbSteps ⟨some [("version", "1")], ["team"], []⟩ (2 - 1)).result =
        none ∧
      (migrate nfldbSteps ⟨some [("version", "1")], ["team"], []⟩ 2).db =
        (migrate nfldbSteps ⟨some [("version", "1")], ["team"], []⟩ (2 - 1)).db ∧
      schema_version
        (migrate nfldbSteps ⟨some [("version", "1")], ["team"], []⟩ 2).db =
        .ok (2 - 1) :=
  claim_C3_step_failure ⟨some [("version", "1")], ["team"], []⟩ 2 2
    .duplicateObject rfl

/-- Claim C4.  When the stored schema version exceeds the requested
target, migrate stops at its assertion before invoking any step and
without touching the database: the result is the bare assertion failure,
no step was invoked, the state is returned unchanged and the stored
version still reads sv. -/
theorem claim_C4_backward (steps : Nat → Option Step) (db : DB) (tgt sv : Nat)
    (h1 : schema_version db = .ok sv) (h2 : tgt < sv) :
    migrate steps db tgt = ⟨some .assertBackward, db, []⟩ ∧
    schema_version (migrate steps db tgt).db = .ok sv := by
  have hm : migrate steps db tgt = ⟨some .assertBackward, db, []⟩ := by
    simp [migrate, h1, show ¬ sv ≤ tgt from by omega]
  exact ⟨hm, by rw [hm]; exact h1⟩

/-- Witness for claim C4: migrating a version-2 database down to
version 1 fails on the assertion, invokes nothing and leaves the stored
version at 2. -/
theorem claim_C4_backward_witness :
    migrate nfldbSteps ⟨some [("version", "2")], [], []⟩ 1 =
      ⟨some .assertBackward, ⟨some [("version", "2")], [], []⟩, []⟩ ∧
    schema_version (migrate nfldbSteps ⟨some [("version", "2")], [], []⟩ 1).db =
      .ok 2 :=
  claim_C4_backward nfldbSteps ⟨some [("version", "2")], [], []⟩ 1 2 rfl
    (by omega)

/-- Claim C5.  schema_version returns 0 without raising both when the
meta store does not exist (the ProgrammingError from the SELECT is
caught and the scope's connection is rolled back before the with-block
exits normally) and when the store exists but holds no row named
version; otherwise it returns the stored value parsed as a base-10
integer. -/
theorem claim_C5_schema_version (db : DB) :
    (db.meta = none →
      schema_version_acts db = (.ok 0, [.stmt, .rollback, .close, .commit])) ∧
    (∀ rows, db.meta = some rows → lookupMeta "version" rows = none →
      schema_version_acts db = (.ok 0, [.stmt, .close, .commit])) ∧
    (∀ rows s n, db.meta = some rows → lookupMeta "version" rows = some s →
      int_parse s = some n → schema_version db = .ok n) := by
  refine ⟨?_, ?_, ?_⟩
  · intro hmeta
    simp [schema_version_acts, hmeta]
  · intro rows hmeta hlv
    simp [schema_version_acts, hmeta, hlv]
  · intro rows str n hmeta hlv hp
    simp [schema_version, schema_version_acts, hmeta, hlv, hp]

/-- Witness for claim C5: a database with no meta store reads as version
0 with a rolled-back lookup scope, and a store whose version row holds
the digits 7 reads as version 7. -/
theorem claim_C5_schema_version_witness :
    schema_version_acts ⟨none, [], []⟩ =
      (.ok 0, [.stmt, .rollback, .close, .commit]) ∧
    schema_version ⟨some [("name", "nfldb"), ("version", "7")], [], []⟩ =
      .ok 7 :=
  ⟨(claim_C5_schema_version ⟨none, [], []⟩).1 rfl,
   (claim_C5_schema_version ⟨some [("name", "nfldb"), ("version", "7")], [], []⟩).2.2
     [("name", "nfldb"), ("version", "7")] "7" 7 rfl rfl rfl⟩

theorem head_lib (api sv : Nat) :
    ("Library with version " ++ toString api ++
      " is older than the schema with version " ++ toString sv).data.head? =
      some (Char.ofNat 76) := rfl

theorem head_mig (v : Nat) :
    ("Migration function " ++ toString v ++ " not defined.").data.head? =
      some (Char.ofNat 77) := rfl

/-- The three fatal-precondition messages of the source are pairwise
distinct for all version parameters. -/
theorem assertionMsg_distinct (api sv v : Nat) :
    assertionMsg (.libOlder api sv) ≠ assertionMsg .notEmptyV0 ∧
    assertionMsg (.libOlder api sv) ≠ assertionMsg (.stepMissing v) ∧
    assertionMsg .notEmptyV0 ≠ assertionMsg (.stepMissing v) := by
  refine ⟨?_, ?_, ?_⟩
  · intro h
    simp only [assertionMsg] at h
    have hh := congrArg (fun s : String => s.data.head?) (Option.some.inj h)
    simp only at hh
    rw [head_lib] at hh
    exact absurd hh (by decide)
  · intro h
    simp only [assertionMsg] at h
    have hh := congrArg (fun s : String => s.data.head?) (Option.some.inj h)
    simp only at hh
    rw [head_lib, head_mig] at hh
    exact absurd hh (by decide)
  · intro h
    simp only [assertionMsg] at h
    have hh := congrArg (fun s : String => s.data.head?) (Option.some.inj h)
    simp only at hh
    rw [head_mig] at hh
    exact absurd hh (by decide)

/-- Counterexample to claim C8 as stated: calling the migration runner
with a target below the stored version is a backward-migration fatal
precondition violation, and it stops execution with the bare assertion
of db.py line 314, which carries no message at all. -/
theorem claim_C8_counterexample :
    (migrate nfldbSteps ⟨some [("version", "2")], ["meta"], []⟩ 1).result =
      some .assertBackward ∧
    assertionMsg .assertBackward = none :=
  ⟨rfl, rfl⟩

/-- Amended claim C8.  The fatal checks of the public connect path each
stop execution with a clear, distinct message: a schema newer than the
library produces the message naming both versions and the skew direction
(conjunct 1), a non-empty database at version 0 produces its own message
(conjunct 2), and a missing migration step produces a message naming the
missing version number (conjunct 3); the three messages are pairwise
distinct (conjunct 4).  However the internal backward-migration assert
of _migrate itself stops execution without any message (conjunct 5). -/
theorem claim_C8_fatal_messages :
    (∀ db sv, schema_version db = .ok sv → api_version < sv →
      (connect_check db).result = some (.libOlder api_version sv) ∧
      assertionMsg (.libOlder api_version sv) =
        some ("Library with version " ++ toString api_version ++
          " is older than the schema with version " ++ toString sv)) ∧
    (∀ db, schema_version db = .ok 0 → db_is_empty db = false →
      (connect_check db).result = some .notEmptyV0 ∧
      assertionMsg .notEmptyV0 =
        some "Schema has version 0 but is not empty.") ∧
    (∀ v, assertionMsg (.stepMissing v) =
      some ("Migration function " ++ toString v ++ " not defined.")) ∧
    (∀ api sv v, assertionMsg (.libOlder api sv) ≠ assertionMsg .notEmptyV0 ∧
      assertionMsg (.libOlder api sv) ≠ assertionMsg (.stepMissing v) ∧
      assertionMsg .notEmptyV0 ≠ assertionMsg (.stepMissing v)) ∧
    (∀ steps db tgt sv, schema_version db = .ok sv → tgt < sv →
      (migrate steps db tgt).result = some .assertBackward ∧
      assertionMsg .assertBackward = none) := by
  refine ⟨?_, ?_, ?_, ?_, ?_⟩
  · intro db sv hsv hgt
    refine ⟨?_, rfl⟩
    simp [connect_check, hsv, hgt]
  · intro db hsv hne
    refine ⟨?_, rfl⟩
    simp [connect_check, hsv, hne, api_version]
  · intro v
    rfl
  · intro api sv v
    exact assertionMsg_distinct api sv v
  · intro steps db tgt sv hsv hlt
    refine ⟨?_, rfl⟩
    simp [migrate, hsv, show ¬ sv ≤ tgt from by omega]

/-- Witness for amended claim C8: a non-empty database at version 0
fails the connect check with the expected message, and a direct backward
migration fails on the messageless assert. -/
theorem claim_C8_fatal_messages_witness :
    ((connect_check ⟨some [("name", "x")], ["meta"], []⟩).result =
      some .notEmptyV0 ∧
      assertionMsg .notEmptyV0 = some "Schema has version 0 but is not empty.") ∧
    ((migrate nfldbSteps ⟨some [("version", "3")], [], []⟩ 2).result =
      some .assertBackward ∧
      assertionMsg .assertBackward = none) :=
  ⟨claim_C8_fatal_messages.2.1 ⟨some [("name", "x")], ["meta"], []⟩ rfl rfl,
   claim_C8_fatal_messages.2.2.2.2 nfldbSteps ⟨some [("version", "3")], [], []⟩
     2 3 rfl (by omega)⟩

/-! ## Part 3: the upsert and bulk-insert builders
    (db.py lines 167-169, 220-249, 252-296) -/

/-- Python str.join: elements of the list separated by sep. -/
def strJoin (sep : String) : List String → String
  | [] => ""
  | [x] => x
  | x :: y :: rest => x ++ sep ++ strJoin sep (y :: rest)

/-- The stamped tables: writes to game, drive and play get automatic
time_inserted/time_updated bookkeeping (db.py lines 230 and 265). -/
def stampedTables : List String := ["game", "drive", "play"]

/-- The update_set fragment of _upsert (db.py lines 266-269): one
col = %s item per body column, plus time_updated = NOW() appended for a
stamped table, joined by commas. -/
def update_set (data : List (String × String)) (stamped : Bool) : String :=
  strJoin ", " ((data.map fun kv => kv.1 ++ " = %s") ++
    (if stamped then ["time_updated = NOW()"] else []))

/-- The insert_fields fragment of _upsert (db.py lines 271-278): the
body column names, plus the two timestamp columns for a stamped
table. -/
def insert_fields (data : List (String × String)) (stamped : Bool) : String :=
  strJoin ", " ((data.map Prod.fst) ++
    (if stamped then ["time_inserted", "time_updated"] else []))

/-- The insert_places fragment of _upsert (db.py lines 272-279): one %s
placeholder per body column, plus two inlined NOW() expressions for a
stamped table. -/
def insert_places (data : List (String × String)) (stamped : Bool) : String :=
  strJoin ", " ((data.map fun _ => "%s") ++
    (if stamped then ["NOW()", "NOW()"] else []))

/-- The pk_cond fragment of _upsert (db.py line 281): key_col = %s
equalities joined by AND. -/
def pk_cond (pk : List (String × String)) : String :=
  strJoin " AND " (pk.map fun kv => kv.1 ++ " = %s")

/-- The statement text q built by _upsert (db.py lines 282-288), with
the whitespace of the Python triple-quoted literals kept verbatim. -/
def upsert_query (table : String) (data pk : List (String × String)) : String :=
  let stamped := stampedTables.contains table
  "\n        UPDATE " ++ table ++ " SET " ++ update_set data stamped ++
    " WHERE " ++ pk_cond pk ++ ";\n    " ++
  "\n        INSERT INTO " ++ table ++ " (" ++ insert_fields data stamped ++
    ")\n        SELECT " ++ insert_places data stamped ++
    " WHERE NOT EXISTS (SELECT 1 FROM " ++ table ++ " WHERE " ++ pk_cond pk ++
    ")\n    "

/-- The bound parameter list passed to cursor.execute by _upsert (db.py
lines 290-293): body values, key values, body values, key values. -/
def upsert_params (data pk : List (String × String)) : List String :=
  (data.map Prod.snd) ++ (pk.map Prod.snd) ++
    (data.map Prod.snd) ++ (pk.map Prod.snd)

/-- Statement shape stated by the spec, written from its words: an
UPDATE of the table setting every body column guarded by equality on
every key column, followed by a conditional INSERT of the body columns
guarded by NOT EXISTS over the same key predicate; for a table in the
stamped set the UPDATE additionally sets time_updated to now and the
INSERT additionally supplies time_inserted and time_updated values of
now.  Used only for comparison with upsert_query. -/
def upsert_spec_shape (table : String) (data pk : List (String × String)) : String :=
  let keyPred := strJoin " AND " (pk.map fun kv => kv.1 ++ " = %s")
  let updateStmt :=
    if stampedTables.contains table then
      "\n        UPDATE " ++ table ++ " SET " ++
        strJoin ", " ((data.map fun kv => kv.1 ++ " = %s") ++
          ["time_updated = NOW()"]) ++
        " WHERE " ++ keyPred ++ ";\n    "
    else
      "\n        UPDATE " ++ table ++ " SET " ++
        strJoin ", " (data.map fun kv => kv.1 ++ " = %s") ++
        " WHERE " ++ keyPred ++ ";\n    "
  let insertStmt :=
    if stampedTables.contains table then
      "\n        INSERT INTO " ++ table ++ " (" ++
        strJoin ", " ((data.map Prod.fst) ++ ["time_inserted", "time_updated"]) ++
        ")\n        SELECT " ++
        strJoin ", " ((data.map fun _ => "%s") ++ ["NOW()", "NOW()"]) ++
        " WHERE NOT EXISTS (SELECT 1 FROM " ++ table ++ " WHERE " ++ keyPred ++
        ")\n    "
    else
      "\n        INSERT INTO " ++ table ++ " (" ++
        strJoin ", " (data.map Prod.fst) ++
        ")\n        SELECT " ++ strJoin ", " (data.map fun _ => "%s") ++
        " WHERE NOT EXISTS (SELECT 1 FROM " ++ table ++ " WHERE " ++ keyPred ++
        ")\n    "
  updateStmt ++ insertStmt

theorem semi_insert_merge (x : String) :
    (";\n    " : String) ++ ("\n        INSERT INTO " ++ x) =
      ";\n    \n        INSERT INTO " ++ x := by
  rw [← String.append_assoc]
  have h : (";\n    " : String) ++ "\n        INSERT INTO " =
      ";\n    \n        INSERT INTO " := by decide
  rw [h]

/-- Claim C6.  For every table, body mapping and key mapping, the
statement text built by _upsert is exactly the UPDATE-then-conditional-
INSERT shape stated by the spec, with the stamped-table timestamp
additions in exactly the stated places. -/
theorem claim_C6_upsert_shape (table : String) (data pk : List (String × String)) :
    upsert_query table data pk = upsert_spec_shape table data pk := by
  unfold upsert_query upsert_spec_shape update_set insert_fields insert_places pk_cond
  cases h : stampedTables.contains table <;>
    simp [h, String.append_assoc, semi_insert_merge]

/-- Rendering of _mogrify (db.py lines 167-169): a list of rendered
values becomes a parenthesised comma-separated tuple.  psycopg2 value
adaptation is the driver's concern; values here stand for their rendered
text. -/
def mogrify (xs : List String) : String :=
  "(" ++ strJoin ", " xs ++ ")"

/-- Python errors raised by _big_insert before any statement reaches
the backend: the IndexError from datas[0] on an empty list. -/
inductive PyErr where
  | indexError
deriving DecidableEq, Repr

/-- Embedding of _big_insert (db.py lines 220-249): reading datas[0]
raises on an empty row list before any statement is issued; otherwise
the single INSERT statement handed to cursor.execute is returned.  The
column list comes from the first row only and every row contributes its
values in its own order; no shape check is performed.  For stamped
tables the field list gains time_inserted and time_updated and every
row tuple gains two NOW() entries. -/
def big_insert (table : String) (datas : List (List (String × String))) :
    Except PyErr String :=
  let stamped := stampedTables.contains table
  match datas with
  | [] => .error .indexError
  | d0 :: _ =>
    let fields := strJoin ", " ((d0.map Prod.fst) ++
      (if stamped then ["time_inserted", "time_updated"] else []))
    let values := strJoin ", " (datas.map fun d =>
      mogrify ((d.map Prod.snd) ++ (if stamped then ["NOW()", "NOW()"] else [])))
    .ok ("\n        INSERT INTO " ++ table ++ " (" ++ fields ++ ") VALUES " ++
      values ++ "\n    ")

/-- The precondition the spec states for bulk insert: every row has the
same ordered column list as the first row.  Written from the claim; the
source performs no such check. -/
def rowsShapeOK (datas : List (List (String × String))) : Bool :=
  match datas with
  | [] => true
  | d0 :: rest => rest.all fun d => d.map Prod.fst == d0.map Prod.fst

/-- Counterexample to claim C7 as stated: two rows with different column
sets violate the shape precondition, yet _big_insert does not fail —
it builds the INSERT from the first row's column list and both rows'
values and hands it to cursor.execute (the ok outcome is the issued
statement), rather than failing fatally before issuing any statement. -/
theorem claim_C7_counterexample :
    rowsShapeOK [[("a", "1")], [("b", "2")]] = false ∧
    big_insert "t" [[("a", "1")], [("b", "2")]] =
      .ok "\n        INSERT INTO t (a) VALUES (1), (2)\n    " :=
  ⟨rfl, rfl⟩

/-- Amended claim C7.  An empty row list fails fatally (the IndexError
from datas[0]) before any statement is issued; a non-empty row list
always yields exactly one multi-row INSERT statement, built from the
first row's column list and every row's value tuple (with the stamped
additions); the same-shape precondition on rows is documented but not
checked, so mismatched rows are not rejected before the statement is
issued. -/
theorem claim_C7_big_insert (table : String)
    (datas : List (List (String × String))) :
    (datas = [] → big_insert table datas = .error .indexError) ∧
    (∀ d0 rest, datas = d0 :: rest →
      big_insert table datas =
        .ok ("\n        INSERT INTO " ++ table ++ " (" ++
          strJoin ", " ((d0.map Prod.fst) ++
            (if stampedTables.contains table then
              ["time_inserted", "time_updated"] else [])) ++
          ") VALUES " ++
          strJoin ", " (datas.map fun d =>
            "(" ++ strJoin ", " ((d.map Prod.snd) ++
              (if stampedTables.contains table then ["NOW()", "NOW()"] else [])) ++
            ")") ++
          "\n    ")) := by
  constructor
  · intro h
    subst h
    rfl
  · intro d0 rest h
    subst h
    simp [big_insert, mogrify]

/-- Witness for amended claim C7: the empty batch raises before issuing,
and a two-row batch (same shape) issues the single multi-row INSERT. -/
theorem claim_C7_big_insert_witness :
    big_insert "game" [] = .error .indexError ∧
    big_insert "t2" [[("a", "1")], [("a", "3")]] =
      .ok "\n        INSERT INTO t2 (a) VALUES (1), (3)\n    " :=
  ⟨(claim_C7_big_insert "game" []).1 rfl,
   ((claim_C7_big_insert "t2" [[("a", "1")], [("a", "3")]]).2
     [("a", "1")] [[("a", "3")]] rfl).trans rfl⟩

/-! ### Placeholder counting for claim C10 -/

/-- Number of %s placeholder occurrences in a character list; the
boolean argument records whether the previous character was the percent
sign. -/
def phAux : List Char → Bool → Nat
  | [], _ => 0
  | c :: rest, pct => (if pct && (c == 's') then 1 else 0) + phAux rest (c == '%')

/-- Whether the last character of the list (or, for an empty list, the
previous character) is the percent sign. -/
def phCarry : List Char → Bool → Bool
  | [], b => b
  | c :: rest, _ => phCarry rest (c == '%')

/-- Number of %s parameter placeholders in a statement fragment. -/
def countPH (s : String) : Nat := phAux s.data false

theorem string_data_append (a b : String) : (a ++ b).data = a.data ++ b.data := rfl

theorem phAux_append (xs ys : List Char) (b : Bool) :
    phAux (xs ++ ys) b = phAux xs b + phAux ys (phCarry xs b) := by
  induction xs generalizing b with
  | nil => simp [phAux, phCarry]
  | cons c rest ih => simp [phAux, phCarry, ih, Nat.add_assoc]

theorem phCarry_append (xs ys : List Char) (b : Bool) :
    phCarry (xs ++ ys) b = phCarry ys (phCarry xs b) := by
  induction xs generalizing b with
  | nil => simp [phCarry]
  | cons c rest ih => simp [phCarry, ih]

/-- A statement fragment with a known placeholder count that does not
end in the percent sign, so counting composes over concatenation. -/
structure Seg (s : String) (k : Nat) : Prop where
  count : phAux s.data false = k
  carry : phCarry s.data false = false

theorem Seg.append {a b : String} {m n : Nat} (ha : Seg a m) (hb : Seg b n) :
    Seg (a ++ b) (m + n) := by
  constructor
  · rw [string_data_append, phAux_append, ha.count, ha.carry, hb.count]
  · rw [string_data_append, phCarry_append, ha.carry, hb.carry]

theorem phAux_no_pct (xs : List Char) (h : ('%' : Char) ∉ xs) :
    phAux xs false = 0 := by
  induction xs with
  | nil => rfl
  | cons c rest ih =>
    simp only [List.mem_cons, not_or] at h
    have hc : (c == '%') = false := by
      cases hbe : c == '%'
      · rfl
      · exact absurd (eq_of_beq hbe).symm h.1
    simp [phAux, hc, ih h.2]

theorem phCarry_no_pct (xs : List Char) (h : ('%' : Char) ∉ xs) :
    phCarry xs false = false := by
  induction xs with
  | nil => rfl
  | cons c rest ih =>
    simp only [List.mem_cons, not_or] at h
    have hc : (c == '%') = false := by
      cases hbe : c == '%'
      · rfl
      · exact absurd (eq_of_beq hbe).symm h.1
    simp [phCarry, hc, ih h.2]

theorem seg_no_pct (s : String) (h : ('%' : Char) ∉ s.data) : Seg s 0 :=
  ⟨phAux_no_pct s.data h, phCarry_no_pct s.data h⟩

theorem seg_eq_ph (k : String) (h : ('%' : Char) ∉ k.data) :
    Seg (k ++ " = %s") 1 :=
  (seg_no_pct k h).append (⟨by decide, by decide⟩ : Seg " = %s" 1)

/-- A join of fragments, none ending in the percent sign, has the sum of
their placeholder counts. -/
theorem seg_strJoin (sep : String) (hsep : Seg sep 0) :
    ∀ l : List String, (∀ s ∈ l, phCarry s.data false = false) →
      Seg (strJoin sep l) ((l.map countPH).sum)
  | [], _ => ⟨rfl, rfl⟩
  | [x], h => ⟨rfl, h x (List.mem_singleton.mpr rfl)⟩
  | x :: y :: rest, h => by
    have ihs := seg_strJoin sep hsep (y :: rest)
      (fun s hs => h s (List.mem_cons_of_mem x hs))
    have hx : Seg x (countPH x) := ⟨rfl, h x (List.mem_cons_self x _)⟩
    have hres := (hx.append hsep).append ihs
    simpa [strJoin] using hres

theorem sum_map_ones {α : Type} (l : List α) (g : α → Nat)
    (h : ∀ a ∈ l, g a = 1) : (l.map g).sum = l.length := by
  induction l with
  | nil => rfl
  | cons a rest ih =>
    simp [h a (List.mem_cons_self a rest),
      ih (fun b hb => h b (List.mem_cons_of_mem a hb)), Nat.add_comm]

theorem sum_map_zeros {α : Type} (l : List α) (g : α → Nat)
    (h : ∀ a ∈ l, g a = 0) : (l.map g).sum = 0 := by
  induction l with
  | nil => rfl
  | cons a rest ih =>
    simp [h a (List.mem_cons_self a rest),
      ih (fun b hb => h b (List.mem_cons_of_mem a hb))]

/-- The UPDATE SET fragment holds exactly one placeholder per body
column; the stamped time_updated = NOW() item holds none. -/
theorem seg_update_set (data : List (String × String)) (stamped : Bool)
    (h : ∀ kv ∈ data, ('%' : Char) ∉ kv.1.data) :
    Seg (update_set data stamped) data.length := by
  have hts : Seg "time_updated = NOW()" 0 := ⟨by decide, by decide⟩
  have hcar : ∀ s ∈ (data.map fun kv => kv.1 ++ " = %s") ++
      (if stamped then ["time_updated = NOW()"] else []),
      phCarry s.data false = false := by
    intro s hs
    rcases List.mem_append.mp hs with hs1 | hs2
    · obtain ⟨kv, hkv, rfl⟩ := List.mem_map.mp hs1
      exact (seg_eq_ph kv.1 (h kv hkv)).carry
    · cases stamped with
      | true =>
        simp at hs2
        subst hs2
        exact hts.carry
      | false => simp at hs2
  have hseg := seg_strJoin ", " ⟨by decide, by decide⟩ _ hcar
  have hsum : (((data.map fun kv => kv.1 ++ " = %s") ++
      (if stamped then ["time_updated = NOW()"] else [])).map countPH).sum =
      data.length := by
    rw [List.map_append, List.sum_append, List.map_map]
    have h1 : (data.map (countPH ∘ fun kv => kv.1 ++ " = %s")).sum = data.length :=
      sum_map_ones data _ (fun kv hkv => (seg_eq_ph kv.1 (h kv hkv)).count)
    cases stamped with
    | true =>
      have h2 : countPH "time_updated = NOW()" = 0 := by decide
      simp [h1, h2]
    | false => simp [h1]
  exact hsum ▸ hseg

/-- The key predicate holds exactly one placeholder per key column. -/
theorem seg_pk_cond (pk : List (String × String))
    (h : ∀ kv ∈ pk, ('%' : Char) ∉ kv.1.data) :
    Seg (pk_cond pk) pk.length := by
  have hcar : ∀ s ∈ pk.map fun kv => kv.1 ++ " = %s",
      phCarry s.data false = false := by
    intro s hs
    obtain ⟨kv, hkv, rfl⟩ := List.mem_map.mp hs
    exact (seg_eq_ph kv.1 (h kv hkv)).carry
  have hseg := seg_strJoin " AND " ⟨by decide, by decide⟩ _ hcar
  have hsum : ((pk.map fun kv => kv.1 ++ " = %s").map countPH).sum = pk.length := by
    rw [List.map_map]
    exact sum_map_ones pk _ (fun kv hkv => (seg_eq_ph kv.1 (h kv hkv)).count)
  exact hsum ▸ hseg

/-- The INSERT SELECT fragment holds exactly one placeholder per body
column; the stamped NOW() expressions are inlined text with no
placeholder. -/
theorem seg_insert_places (data : List (String × String)) (stamped : Bool) :
    Seg (insert_places data stamped) data.length := by
  have hph : Seg "%s" 1 := ⟨by decide, by decide⟩
  have hnow : Seg "NOW()" 0 := ⟨by decide, by decide⟩
  have hcar : ∀ s ∈ (data.map fun _ => ("%s" : String)) ++
      (if stamped then ["NOW()", "NOW()"] else []),
      phCarry s.data false = false := by
    intro s hs
    rcases List.mem_append.mp hs with hs1 | hs2
    · obtain ⟨kv, hkv, rfl⟩ := List.mem_map.mp hs1
      exact hph.carry
    · cases stamped with
      | true =>
        simp at hs2
        subst hs2
        exact hnow.carry
      | false => simp at hs2
  have hseg := seg_strJoin ", " ⟨by decide, by decide⟩ _ hcar
  have hsum : (((data.map fun _ => ("%s" : String)) ++
      (if stamped then ["NOW()", "NOW()"] else [])).map countPH).sum =
      data.length := by
    rw [List.map_append, List.sum_append, List.map_map]
    have h1 : (data.map (countPH ∘ fun _ => ("%s" : String))).sum = data.length :=
      sum_map_ones data _ (fun kv hkv => hph.count)
    cases stamped with
    | true =>
      have h2 : countPH "NOW()" = 0 := by decide
      simp [h1, h2]
    | false => simp [h1]
  exact hsum ▸ hseg

/-- The INSERT column list holds no placeholder at all. -/
theorem seg_insert_fields (data : List (String × String)) (stamped : Bool)
    (h : ∀ kv ∈ data, ('%' : Char) ∉ kv.1.data) :
    Seg (insert_fields data stamped) 0 := by
  have hti : Seg "time_inserted" 0 := ⟨by decide, by decide⟩
  have htu : Seg "time_updated" 0 := ⟨by decide, by decide⟩
  have hcar : ∀ s ∈ (data.map Prod.fst) ++
      (if stamped then ["time_inserted", "time_updated"] else []),
      phCarry s.data false = false := by
    intro s hs
    rcases List.mem_append.mp hs with hs1 | hs2
    · obtain ⟨kv, hkv, rfl⟩ := List.mem_map.mp hs1
      exact (seg_no_pct kv.1 (h kv hkv)).carry
    · cases stamped with
      | true =>
        simp at hs2
        rcases hs2 with rfl | rfl
        · exact hti.carry
        · exact htu.carry
      | false => simp at hs2
  have hseg := seg_strJoin ", " ⟨by decide, by decide⟩ _ hcar
  have hsum : (((data.map Prod.fst) ++
      (if stamped then ["time_inserted", "time_updated"] else [])).map countPH).sum =
      0 := by
    rw [List.map_append, List.sum_append, List.map_map]
    have h1 : (data.map (countPH ∘ Prod.fst)).sum = 0 :=
      sum_map_zeros data _ (fun kv hkv => (seg_no_pct kv.1 (h kv hkv)).count)
    cases stamped with
    | true =>
      have h2 : countPH "time_inserted" = 0 := by decide
      have h3 : countPH "time_updated" = 0 := by decide
      simp [h1, h2, h3]
    | false => simp [h1]
  exact hsum ▸ hseg

/-- Claim C10 (implicit).  The parameter list bound by _upsert is
exactly body values, key values, body values, key values; the statement
text decomposes in that order into placeholder-bearing fragments with
counts body size (UPDATE SET), key size (UPDATE WHERE), body size
(INSERT SELECT), key size (NOT EXISTS WHERE), the literal glue and
column-list fragments carrying no placeholder, so the total number of
%s placeholders in the concatenated statement equals the length of the
bound parameter list; the stamped timestamp columns are inlined NOW()
text and contribute no placeholder.  Identifiers are assumed free of
the percent character, as all real table and column names are. -/
theorem claim_C10_upsert_params (table : String) (data pk : List (String × String))
    (ht : ('%' : Char) ∉ table.data)
    (hd : ∀ kv ∈ data, ('%' : Char) ∉ kv.1.data)
    (hp : ∀ kv ∈ pk, ('%' : Char) ∉ kv.1.data) :
    upsert_params data pk =
      (data.map Prod.snd) ++ (pk.map Prod.snd) ++
        (data.map Prod.snd) ++ (pk.map Prod.snd) ∧
    countPH (update_set data (stampedTables.contains table)) = data.length ∧
    countPH (pk_cond pk) = pk.length ∧
    countPH (insert_places data (stampedTables.contains table)) = data.length ∧
    countPH (insert_fields data (stampedTables.contains table)) = 0 ∧
    countPH (upsert_query table data pk) = (upsert_params data pk).length ∧
    (upsert_params data pk).length =
      data.length + pk.length + data.length + pk.length := by
  have hT : Seg table 0 := seg_no_pct table ht
  have hUS := seg_update_set data (stampedTables.contains table) hd
  have hPK := seg_pk_cond pk hp
  have hIP := seg_insert_places data (stampedTables.contains table)
  have hIF := seg_insert_fields data (stampedTables.contains table) hd
  have l1 : Seg "\n        UPDATE " 0 := ⟨by decide, by decide⟩
  have l2 : Seg " SET " 0 := ⟨by decide, by decide⟩
  have l3 : Seg " WHERE " 0 := ⟨by decide, by decide⟩
  have l4 : Seg ";\n    " 0 := ⟨by decide, by decide⟩
  have l5 : Seg "\n        INSERT INTO " 0 := ⟨by decide, by decide⟩
  have l6 : Seg " (" 0 := ⟨by decide, by decide⟩
  have l7 : Seg ")\n        SELECT " 0 := ⟨by decide, by decide⟩
  have l8 : Seg " WHERE NOT EXISTS (SELECT 1 FROM " 0 := ⟨by decide, by decide⟩
  have l9 : Seg ")\n    " 0 := ⟨by decide, by decide⟩
  have hfull := ((((((((((((((((l1.append hT).append l2).append hUS).append
    l3).append hPK).append l4).append l5).append hT).append l6).append
    hIF).append l7).append hIP).append l8).append hT).append l3).append
    hPK).append l9
  have hqe : countPH (upsert_query table data pk) =
      0 + 0 + 0 + data.length + 0 + pk.length + 0 + 0 + 0 + 0 + 0 + 0 +
        data.length + 0 + 0 + 0 + pk.length + 0 := hfull.count
  have hlen : (upsert_params data pk).length =
      data.length + pk.length + data.length + pk.length := by
    simp only [upsert_params, List.length_append, List.length_map]
  refine ⟨rfl, hUS.count, hPK.count, hIP.count, hIF.count, ?_, hlen⟩
  rw [hqe, hlen]
  omega

/-- Witness for claim C10 at the stamped table game with one body
column and one key column: four placeholders, four bound parameters. -/
theorem claim_C10_upsert_params_witness :
    countPH (upsert_query "game" [("home_score", "10")] [("gsis_id", "x")]) =
      (upsert_params [("home_score", "10")] [("gsis_id", "x")]).length ∧
    countPH (update_set [("home_score", "10")]
      (stampedTables.contains "game")) = 1 := by
  have h := claim_C10_upsert_params "game" [("home_score", "10")]
    [("gsis_id", "x")] (by decide) (by decide) (by decide)
  exact ⟨h.2.2.2.2.2.1, h.2.1⟩

end Nfldb
